import Mathlib

/-!
Verification of the `ishod` result/error-handling library
(`src/result/impl.ts`, `src/result/types.ts`, `src/helpers.ts`).

The library runs in a dynamically typed language, so all payloads,
errors and thrown values live in one runtime-value type; we embed that
as a type parameter `ω`.  The TS type parameters `T`, `E`, `U` all
range over runtime values and are rendered as `ω`.

A deferred value (JS promise) is embedded as `JsPromise`: a record of
one settlement outcome together with the (abstract) time at which it
settles.  By construction a `JsPromise` carries exactly one settlement,
which captures "settles exactly once"; registering a continuation
produces a promise that settles strictly later, at `time + 1` (or after
the inner promise when the continuation itself returns a promise).

Caller-supplied callbacks may throw: that is embedded as a function
into `Except ω`, the thrown value being the `error` case.  Callbacks
may also return a deferred value; `Ret` distinguishes a plain return
from a returned promise, and `Call ω` is the full shape of one call of
a JS callback.
-/

namespace Ishod

/-- Property keys appearing in the source (`ok`, `data`, `error`,
`then`, `catch`) plus arbitrary other keys, for the structural
promise-detection check in `src/helpers.ts`. -/
inductive Key : Type where
  | keyOk
  | keyData
  | keyError
  | keyThen
  | keyCatch
  | other (n : Nat)
deriving DecidableEq

/-- Runtime JS values, at the granularity `isPromise` inspects:
primitives, `null`, functions (typeof "function") and non-null objects
(typeof "object"), the latter two carrying their properties. -/
inductive JsValue : Type where
  | undef
  | jsNull
  | boolean (b : Bool)
  | number (n : Int)
  | strVal (nonEmpty : Bool)
  | fnVal (props : List (Key × JsValue))
  | objVal (props : List (Key × JsValue))

/-- JS truthiness of a value (`value &&` in the source short-circuits
on falsy values).  Every function and every non-null object is truthy. -/
def truthy : JsValue → Bool
  | JsValue.undef => false
  | JsValue.jsNull => false
  | JsValue.boolean b => b
  | JsValue.number n => decide (n ≠ 0)
  | JsValue.strVal nonEmpty => nonEmpty
  | JsValue.fnVal _ => true
  | JsValue.objVal _ => true

/-- Embeds `typeof value === "object"`: true for non-null objects and
for `null` (a JS quirk), false for primitives and functions. -/
def typeofIsObject : JsValue → Bool
  | JsValue.jsNull => true
  | JsValue.objVal _ => true
  | _ => false

/-- Embeds the `in` operator on the values it is reached for: a key is
present iff the value is an object or function listing it. -/
def hasProp : JsValue → Key → Bool
  | JsValue.objVal props, k => props.any (fun p => p.1 == k)
  | JsValue.fnVal props, k => props.any (fun p => p.1 == k)
  | _, _ => false

/-- Embeds `isPromise` from `src/helpers.ts`:
`value && typeof value === "object" && "then" in value && "catch" in value`. -/
def isPromise (v : JsValue) : Bool :=
  truthy v && typeofIsObject v && hasProp v Key.keyThen && hasProp v Key.keyCatch

/-- The runtime object built by `ok(data)`: `{ ok: true, data: data }`. -/
def okJs (d : JsValue) : JsValue :=
  JsValue.objVal [(Key.keyOk, JsValue.boolean true), (Key.keyData, d)]

/-- The runtime object built by `err(error)`: `{ ok: false, error: error }`. -/
def errJs (e : JsValue) : JsValue :=
  JsValue.objVal [(Key.keyOk, JsValue.boolean false), (Key.keyError, e)]

/-- Spec-side predicate, following the words of the spec for comparison with
`isPromise`: the value exposes the two-method asynchronous-completion
shape, i.e. has both a `then` and a `catch` property. -/
def exposesThenCatch (v : JsValue) : Bool :=
  hasProp v Key.keyThen && hasProp v Key.keyCatch

/-- Spec-side helper naming the class of values `isPromise` actually
accepts: non-null objects (typeof "object", truthy). -/
def isPlainObject : JsValue → Bool
  | JsValue.objVal _ => true
  | _ => false

/-- The `Result` tagged union of `src/result/types.ts`: `Ok` holds the
`data` slot, `Err` holds the `error` slot, and the `ok` discriminant is
the constructor tag. -/
inductive Result (ω : Type) : Type where
  | Ok (data : ω)
  | Err (error : ω)
deriving DecidableEq

variable {ω : Type}

/-- The `ok` discriminant field of a result record. -/
def Result.okFlag : Result ω → Bool
  | Result.Ok _ => true
  | Result.Err _ => false

/-- Embeds `ok(data)`. -/
def ok (d : ω) : Result ω := Result.Ok d

/-- Embeds `err(error)`. -/
def err (e : ω) : Result ω := Result.Err e

/-- Embeds `isOk`: `return result.ok`. -/
def isOk (r : Result ω) : Bool := r.okFlag

/-- Embeds `isErr`: `return !result.ok`. -/
def isErr (r : Result ω) : Bool := !r.okFlag

/-- Embeds the immediate branch of `unwrap`: `return result.data`.
Reading the `data` field of an `Err` record, which lacks it, yields
`undefined` in JS; a field read is therefore `Option ω`-valued, with
`none` standing for `undefined`. -/
def unwrap : Result ω → Option ω
  | Result.Ok v => some v
  | Result.Err _ => none

/-- Embeds the immediate branch of `unwrapErr`: `return err.error`,
with `none` standing for the `undefined` read off an `Ok` record. -/
def unwrapErr : Result ω → Option ω
  | Result.Err e => some e
  | Result.Ok _ => none

/-- Embeds the immediate branch of `unwrapForced`:
`return (result as Ok<T>).data` — same runtime behavior as `unwrap`,
only the static cast differs. -/
def unwrapForced : Result ω → Option ω
  | Result.Ok v => some v
  | Result.Err _ => none

/-- Embeds the immediate branch of `unwrapEither`: the `data` slot of
an `Ok`, the `error` slot of an `Err` (the TS union `T | E` collapses
into `ω`). -/
def unwrapEither : Result ω → ω
  | Result.Ok v => v
  | Result.Err e => e

/-- Embeds the immediate branch of `unwrapOr`: the `data` slot of an
`Ok`, else the caller-supplied fallback. -/
def unwrapOr (r : Result ω) (or : ω) : ω :=
  match r with
  | Result.Ok v => v
  | Result.Err _ => or

/-- The single settlement of a deferred value: it either resolves with
a value or rejects with a reason. -/
inductive Settled (ε α : Type) : Type where
  | resolved (value : α)
  | rejected (reason : ε)
deriving DecidableEq

/-- A deferred value (JS promise): exactly one settlement outcome,
together with the abstract time at which it settles.  That a promise
has exactly one `outcome` field is the model of "settles exactly once". -/
structure JsPromise (ε α : Type) : Type where
  time : Nat
  outcome : Settled ε α
deriving DecidableEq

variable {ε α β : Type}

/-- Registering a continuation with `.then(f)` for a callback `f` that
returns a plain value or throws: the derived promise settles one step
after `p`, resolving with the return of `f`, rejecting with the value thrown by `f`, and passing a rejection of `p` through. -/
def JsPromise.thenF (p : JsPromise ε α) (f : α → Except ε β) : JsPromise ε β where
  time := p.time + 1
  outcome :=
    match p.outcome with
    | Settled.resolved a =>
      match f a with
      | Except.ok b => Settled.resolved b
      | Except.error e => Settled.rejected e
    | Settled.rejected e => Settled.rejected e

/-- Registering a rejection handler with `.catch(f)`: the derived
promise settles one step after `p`, passing a resolution through and
applying `f` to a rejection reason. -/
def JsPromise.catchF (p : JsPromise ε α) (f : ε → Except ε α) : JsPromise ε α where
  time := p.time + 1
  outcome :=
    match p.outcome with
    | Settled.resolved a => Settled.resolved a
    | Settled.rejected e =>
      match f e with
      | Except.ok a => Settled.resolved a
      | Except.error e2 => Settled.rejected e2

/-- `.then(f)` for a callback that may also return a promise (the
`Sum.inr` case): the derived promise then adopts the settlement of the inner
promise, settling strictly after both. -/
def JsPromise.thenFull (p : JsPromise ε α)
    (f : α → Except ε (Sum β (JsPromise ε β))) : JsPromise ε β where
  time :=
    match p.outcome with
    | Settled.resolved a =>
      match f a with
      | Except.ok (Sum.inr q) => max p.time q.time + 1
      | _ => p.time + 1
    | Settled.rejected _ => p.time + 1
  outcome :=
    match p.outcome with
    | Settled.resolved a =>
      match f a with
      | Except.ok (Sum.inl b) => Settled.resolved b
      | Except.ok (Sum.inr q) => q.outcome
      | Except.error e => Settled.rejected e
    | Settled.rejected e => Settled.rejected e

/-- What a call of a JS callback can return when it does not throw:
a plain value, or a deferred value. -/
inductive Ret (ω : Type) : Type where
  | val (v : ω)
  | prom (p : JsPromise ω ω)

/-- One call of a caller-supplied JS callback: it throws (`Except.error`),
or returns a plain value, or returns a deferred value. -/
abbrev Call (ω : Type) := Except ω (Ret ω)

/-- A callback that always returns a plain value, as a `Call`. -/
def valCall (f : ω → ω) : ω → Call ω :=
  fun x => Except.ok (Ret.val (f x))

/-- Embeds the deferred branch of `try$`: `fn.then(ok).catch(err)`. -/
def tryProm (p : JsPromise ω ω) : JsPromise ω (Result ω) :=
  (p.thenF (fun v => Except.ok (ok v))).catchF (fun e => Except.ok (err e))

/-- Embeds the computation branch of `try$` (`src/result/impl.ts`,
lines 689-699): call `fn`; on a synchronous throw return `err(e)`
immediately; on a plain return value return `ok(res)` immediately; on a
returned promise recurse into the deferred branch.  `Sum.inl` is an
immediate result, `Sum.inr` a deferred one. -/
def try' (fn : Unit → Call ω) : Sum (Result ω) (JsPromise ω (Result ω)) :=
  match fn Unit.unit with
  | Except.error e => Sum.inl (err e)
  | Except.ok (Ret.val v) => Sum.inl (ok v)
  | Except.ok (Ret.prom p) => Sum.inr (tryProm p)

/-- Embeds the immediate branch of `tap`: if the result is an `Ok`,
call `fn` on its data — without catching anything — then return the
original result.  The effect of the callback (and a possible throw) is
embedded by letting it run in an arbitrary monad `m`. -/
def tap {m : Type → Type} [Monad m] (r : Result ω) (fn : ω → m Unit) :
    m (Result ω) :=
  match r with
  | Result.Ok v => bind (fn v) (fun _ => pure r)
  | Result.Err _ => pure r

/-- Embeds the immediate branch of `tapErr`: if the result is an `Err`,
call `fn` on its error, then return the original result. -/
def tapErr {m : Type → Type} [Monad m] (r : Result ω) (fn : ω → m Unit) :
    m (Result ω) :=
  match r with
  | Result.Err e => bind (fn e) (fun _ => pure r)
  | Result.Ok _ => pure r

/-- Embeds the immediate branch of `map`: on an `Ok`, run
`try$(() => fn(result.data))`; on an `Err`, return the original result
(immediately, `Sum.inl`). -/
def map (r : Result ω) (fn : ω → Call ω) :
    Sum (Result ω) (JsPromise ω (Result ω)) :=
  match r with
  | Result.Ok v => try' (fun _ => fn v)
  | Result.Err _ => Sum.inl r

/-- Embeds the immediate branch of `mapErr`: on an `Err`, run
`const r = try$(() => fn(result.error))`, take `v = unwrapEither(r)`
(for a deferred `r` that is `r.then(unwrapEither)`), and return
`err(v)` (for a deferred `v`, `v.then(err)`); on an `Ok`, return the
original result. -/
def mapErr (r : Result ω) (fn : ω → Call ω) :
    Sum (Result ω) (JsPromise ω (Result ω)) :=
  match r with
  | Result.Err e =>
    match try' (fun _ => fn e) with
    | Sum.inl res => Sum.inl (err (unwrapEither res))
    | Sum.inr p =>
      Sum.inr ((p.thenF (fun x => Except.ok (unwrapEither x))).thenF
        (fun x => Except.ok (err x)))
  | Result.Ok _ => Sum.inl r

/-- Embeds the immediate branch of `tryMap`: on an `Ok`, return
`fn(result.data)` itself — nothing is caught, so a throw of `fn`
propagates (`Except.error`); on an `Err`, return the original result. -/
def tryMap (r : Result ω) (fn : ω → Except ω (Result ω)) :
    Except ω (Result ω) :=
  match r with
  | Result.Ok v => fn v
  | Result.Err _ => Except.ok r

/-- Embeds the deferred branch of `unwrap`:
`result.then((x) => unwrap(x))`. -/
def unwrapP (p : JsPromise ω (Result ω)) : JsPromise ω (Option ω) :=
  p.thenF (fun x => Except.ok (unwrap x))

/-- Embeds the deferred branch of `unwrapErr`:
`err.then((x) => unwrapErr(x))`. -/
def unwrapErrP (p : JsPromise ω (Result ω)) : JsPromise ω (Option ω) :=
  p.thenF (fun x => Except.ok (unwrapErr x))

/-- Embeds the deferred branch of `unwrapForced`:
`result.then((x) => unwrapForced(x))`. -/
def unwrapForcedP (p : JsPromise ω (Result ω)) : JsPromise ω (Option ω) :=
  p.thenF (fun x => Except.ok (unwrapForced x))

/-- Embeds the deferred branch of `unwrapEither`:
`result.then((x) => unwrapEither(x))`. -/
def unwrapEitherP (p : JsPromise ω (Result ω)) : JsPromise ω ω :=
  p.thenF (fun x => Except.ok (unwrapEither x))

/-- Embeds the deferred branch of `unwrapOr`:
`result.then((x) => unwrapOr(x, or))`. -/
def unwrapOrP (p : JsPromise ω (Result ω)) (or : ω) : JsPromise ω ω :=
  p.thenF (fun x => Except.ok (unwrapOr x or))

/-- Embeds the deferred branch of `tap`:
`result.then((x) => tap(x, fn))`; the inner call is the immediate
branch, whose callback may throw. -/
def tapP (p : JsPromise ω (Result ω)) (fn : ω → Except ω Unit) :
    JsPromise ω (Result ω) :=
  p.thenF (fun x => tap x fn)

/-- Embeds the deferred branch of `tapErr`:
`result.then((x) => tapErr(x, fn))`. -/
def tapErrP (p : JsPromise ω (Result ω)) (fn : ω → Except ω Unit) :
    JsPromise ω (Result ω) :=
  p.thenF (fun x => tapErr x fn)

/-- Embeds the deferred branch of `map`:
`result.then((x) => map(x, fn))`; the inner immediate-branch call may
itself produce a deferred result, which `.then` flattens. -/
def mapP (p : JsPromise ω (Result ω)) (fn : ω → Call ω) :
    JsPromise ω (Result ω) :=
  p.thenFull (fun x => Except.ok (map x fn))

/-- Embeds the deferred branch of `mapErr`:
`result.then((x) => mapErr(x, fn))`. -/
def mapErrP (p : JsPromise ω (Result ω)) (fn : ω → Call ω) :
    JsPromise ω (Result ω) :=
  p.thenFull (fun x => Except.ok (mapErr x fn))

/-- View of one call of a possibly-throwing computation as a
settlement: a normal return resolves, a throw rejects. -/
def settleOfExcept : Except ε α → Settled ε α
  | Except.ok a => Settled.resolved a
  | Except.error e => Settled.rejected e

/-- View of an immediate-or-deferred output as a settlement: an
immediate output is already settled, a deferred one contributes its own
settlement. -/
def settleOfSum : Sum α (JsPromise ε α) → Settled ε α
  | Sum.inl a => Settled.resolved a
  | Sum.inr q => q.outcome

/-- Run a settlement continuation after an input settlement, passing a
rejection through. -/
def afterSettle (k : α → Settled ε β) : Settled ε α → Settled ε β
  | Settled.resolved a => k a
  | Settled.rejected e => Settled.rejected e

/-- Logging callback used to observe how often, and with which
arguments, a combinator invokes its callback. -/
def logTap : ω → StateM (List ω) Unit :=
  fun v => modify (fun s => s ++ [v])

/-- A continuation registration settles strictly after its input. -/
theorem thenF_time (p : JsPromise ε α) (f : α → Except ε β) :
    p.time < (p.thenF f).time :=
  Nat.lt_succ_self _

/-- The settlement of `.then(f)` is the input settlement continued by
`f`, a throw of `f` rejecting and a rejection passing through. -/
theorem thenF_outcome (p : JsPromise ε α) (f : α → Except ε β) :
    (p.thenF f).outcome =
      afterSettle (fun a => settleOfExcept (f a)) p.outcome := by
  obtain ⟨t, o⟩ := p
  cases o with
  | resolved a =>
    cases hfa : f a <;>
      simp [JsPromise.thenF, afterSettle, settleOfExcept, hfa]
  | rejected e =>
    simp [JsPromise.thenF, afterSettle]

/-- A flattening continuation registration settles strictly after its
input. -/
theorem thenFull_ok_time (p : JsPromise ε α) (h : α → Sum β (JsPromise ε β)) :
    p.time < (p.thenFull (fun a => Except.ok (h a))).time := by
  obtain ⟨t, o⟩ := p
  cases o with
  | resolved a =>
    cases hha : h a with
    | inl b =>
      simp only [JsPromise.thenFull, hha]
      omega
    | inr q =>
      simp only [JsPromise.thenFull, hha]
      exact Nat.lt_succ_of_le (Nat.le_max_left _ _)
  | rejected e =>
    simp only [JsPromise.thenFull]
    omega

/-- The settlement of a flattening `.then` with a non-throwing callback
is the input settlement continued by the callback, an immediate output
resolving and a deferred output contributing its own settlement. -/
theorem thenFull_ok_outcome (p : JsPromise ε α)
    (h : α → Sum β (JsPromise ε β)) :
    (p.thenFull (fun a => Except.ok (h a))).outcome =
      afterSettle (fun a => settleOfSum (h a)) p.outcome := by
  obtain ⟨t, o⟩ := p
  cases o with
  | resolved a =>
    cases hha : h a <;>
      simp [JsPromise.thenFull, afterSettle, settleOfSum, hha]
  | rejected e =>
    simp [JsPromise.thenFull, afterSettle]

/-- Claim C10: for every value `v`, `isOk(ok(v))` is true, `isErr(ok(v))` is
false and `unwrap(ok(v))` is `v`; for every error `e`, `isErr(err(e))`
is true, `isOk(err(e))` is false and `unwrapErr(err(e))` is `e`.
Moreover `unwrap` on a Failure and `unwrapErr` on a Success are total
and return `undefined` (`none`), never throwing. -/
theorem core_predicates_and_unwrap {ω : Type} (v e : ω) :
    isOk (ok v) = true ∧ isErr (ok v) = false ∧ unwrap (ok v) = some v
  ∧ isErr (err e) = true ∧ isOk (err e) = false ∧ unwrapErr (err e) = some e
  ∧ unwrap (err e) = none ∧ unwrapErr (ok v) = none := by
  exact ⟨rfl, rfl, rfl, rfl, rfl, rfl, rfl, rfl⟩

/-- Claim C6: `tryMap(ok(v), fn)` is exactly `fn(v)` with no extra wrapping,
whichever variant `fn` produces; `tryMap(err(e), fn)` returns the
original Failure unchanged, and — since this holds for every `fn` and
the output never depends on it — `fn` is never invoked. -/
theorem tryMap_exact_passthrough {ω : Type} (v e : ω)
    (f g : ω → Except ω (Result ω)) :
    tryMap (ok v) f = f v
  ∧ tryMap (err e) f = Except.ok (err e)
  ∧ tryMap (err e) f = tryMap (err e) g := by
  exact ⟨rfl, rfl, rfl⟩

/-- Claim C7: for a mapper `f` that returns normally, `map(ok(v), f)` is
`ok(f(v))` and `map(err(e), fn)` is `err(e)` for every callback `fn`
(so the callback is never invoked); symmetrically,
`mapErr(err(e), f)` is `err(f(e))` and `mapErr(ok(v), fn)` is `ok(v)`
for every callback `fn`. -/
theorem map_mapErr_pure_cases {ω : Type} (v e : ω) (f : ω → ω)
    (fn : ω → Call ω) :
    map (ok v) (valCall f) = Sum.inl (ok (f v))
  ∧ map (err e) fn = Sum.inl (err e)
  ∧ mapErr (err e) (valCall f) = Sum.inl (err (f e))
  ∧ mapErr (ok v) fn = Sum.inl (ok v) := by
  exact ⟨rfl, rfl, rfl, rfl⟩

/-- Claim C4: if the mapper throws `x` when applied to `v`, then
`map(ok(v), f)` equals the immediate `err(x)`: the exception is caught
inside `map` (via the guarded-execution primitive) and does not
propagate. -/
theorem map_catches_thrown_mapper {ω : Type} (v x : ω) (f : ω → Call ω)
    (hf : f v = Except.error x) :
    map (ok v) f = Sum.inl (err x) := by
  simp [map, try', hf, ok, err]

/-- Witness for C4 at `ω = Nat`, `v = 1`, a mapper that throws `7`. -/
theorem map_catches_thrown_mapper_witness :
    map (ok 1) (fun _ => (Except.error 7 : Call Nat)) = Sum.inl (err 7) :=
  map_catches_thrown_mapper 1 7 (fun _ => Except.error 7) rfl

/-- Claim C5: for `mapErr(err(e), f)`: if `f e` throws `x` the new Failure
payload is the thrown `x` (not the original `e`); if `f e` returns `u`
normally the result is `err(u)`; and if `f e` returns a deferred
computation that rejects with `x`, the deferred output settles to
`err(x)`. -/
theorem mapErr_mapper_outcome {ω : Type} (e x u : ω) (f : ω → Call ω)
    (p : JsPromise ω ω) :
    (f e = Except.error x → mapErr (err e) f = Sum.inl (err x))
  ∧ (f e = Except.ok (Ret.val u) → mapErr (err e) f = Sum.inl (err u))
  ∧ (f e = Except.ok (Ret.prom p) → p.outcome = Settled.rejected x →
      ∃ q, mapErr (err e) f = Sum.inr q
        ∧ q.outcome = Settled.resolved (err x)) := by
  refine ⟨?_, ?_, ?_⟩
  · intro hf
    simp [mapErr, try', hf, ok, err, unwrapEither]
  · intro hf
    simp [mapErr, try', hf, ok, err, unwrapEither]
  · intro hf hp
    obtain ⟨t, o⟩ := p
    simp only at hp
    subst hp
    simp [mapErr, try', hf, tryProm, JsPromise.thenF, JsPromise.catchF,
      unwrapEither, ok, err]

/-- Witness for C5 at `ω = Nat`, `e = 0`, with a throwing mapper, a
plainly returning mapper, and a mapper returning a rejecting deferred. -/
theorem mapErr_mapper_outcome_witness :
    mapErr (err 0) (fun _ => (Except.error 5 : Call Nat)) = Sum.inl (err 5)
  ∧ mapErr (err 0) (fun _ => (Except.ok (Ret.val 9) : Call Nat))
      = Sum.inl (err 9)
  ∧ ∃ q, mapErr (err 0)
        (fun _ => (Except.ok (Ret.prom ⟨0, Settled.rejected 3⟩) : Call Nat))
        = Sum.inr q
      ∧ q.outcome = Settled.resolved (err 3) := by
  refine ⟨?_, ?_, ?_⟩
  · exact (mapErr_mapper_outcome 0 5 5 (fun _ => Except.error 5)
      ⟨0, Settled.rejected 3⟩).1 rfl
  · exact (mapErr_mapper_outcome 0 9 9 (fun _ => Except.ok (Ret.val 9))
      ⟨0, Settled.rejected 3⟩).2.1 rfl
  · exact (mapErr_mapper_outcome 0 3 3
      (fun _ => Except.ok (Ret.prom ⟨0, Settled.rejected 3⟩))
      ⟨0, Settled.rejected 3⟩).2.2 rfl rfl

/-- Claim C2: `try$` applied to a deferred value yields a deferred result
that settles — always by resolving, never by rejecting — to `ok(v)`
when the input resolves with `v` and to `err(x)` when the input rejects
with `x`. -/
theorem try_deferred_converts_settlement {ω : Type} (p : JsPromise ω ω) :
    (tryProm p).outcome = Settled.resolved
      (match p.outcome with
       | Settled.resolved v => ok v
       | Settled.rejected x => err x) := by
  obtain ⟨t, o⟩ := p
  cases o <;> simp [tryProm, JsPromise.thenF, JsPromise.catchF]

/-- Claim C3: `try$` on a zero-argument computation: a synchronous throw of
`x` yields the immediate (`Sum.inl`, no deferred involved) `err(x)`; a
plain return of `v` yields the immediate `ok(v)`; a returned deferred
value is handed to the deferred case (`Sum.inr`), so a returned
deferred resolving with `v` makes the output settle to `ok(v)`. -/
theorem try_sync_cases {ω : Type} (x v w : ω) (p : JsPromise ω ω) (t : Nat) :
    try' (fun _ => (Except.error x : Call ω)) = Sum.inl (err x)
  ∧ try' (fun _ => Except.ok (Ret.val v)) = Sum.inl (ok v)
  ∧ try' (fun _ => Except.ok (Ret.prom p)) = Sum.inr (tryProm p)
  ∧ (tryProm ⟨t, Settled.resolved w⟩).outcome = Settled.resolved (ok w) := by
  exact ⟨rfl, rfl, rfl, rfl⟩

/-- Claim C8: `tap` and `tapErr` return the original result value itself for
any side-effect-free callback; with a logging callback the callback is
invoked exactly once with the payload when the variant matches and
zero times otherwise, while the returned result is still the original;
and a throw of the callback is not caught — it propagates. -/
theorem tap_tapErr_frame {ω : Type} (v e x : ω) (s : List ω)
    (g : ω → Id Unit) :
    tap (ok v) g = ok v
  ∧ tap (err e) g = err e
  ∧ tapErr (ok v) g = ok v
  ∧ tapErr (err e) g = err e
  ∧ (tap (ok v) logTap).run s = (ok v, s ++ [v])
  ∧ (tap (err e) logTap).run s = (err e, s)
  ∧ (tapErr (err e) logTap).run s = (err e, s ++ [e])
  ∧ (tapErr (ok v) logTap).run s = (ok v, s)
  ∧ tap (ok v) (fun _ => (Except.error x : Except ω Unit)) = Except.error x
  ∧ tapErr (err e) (fun _ => (Except.error x : Except ω Unit))
      = Except.error x := by
  exact ⟨rfl, rfl, rfl, rfl, rfl, rfl, rfl, rfl, rfl, rfl⟩

/-- Claim C9, counterexample: the claimed equivalence — `isPromise` is true exactly
when the value has both a `then` and a `catch` capability — fails on a
function value carrying `then` and `catch` properties (a genuine JS
thenable): it exposes the shape, yet `isPromise` returns false because
`typeof` a function is not "object". -/
theorem isPromise_shape_mismatch_on_function :
    isPromise (JsValue.fnVal
      [(Key.keyThen, JsValue.undef), (Key.keyCatch, JsValue.undef)]) = false
  ∧ exposesThenCatch (JsValue.fnVal
      [(Key.keyThen, JsValue.undef), (Key.keyCatch, JsValue.undef)]) = true := by
  exact ⟨rfl, rfl⟩

/-- Claim C9, amended: `isPromise` returns true iff the value is a non-null
object (typeof "object") exposing both a `then` and a `catch`
property; it returns false for every plain value, including every
result built by `ok` or `err`. -/
theorem isPromise_object_shape (v d e : JsValue) :
    isPromise v = (isPlainObject v && exposesThenCatch v)
  ∧ isPromise (okJs d) = false
  ∧ isPromise (errJs e) = false := by
  refine ⟨?_, rfl, rfl⟩
  cases v <;>
    simp [isPromise, truthy, typeofIsObject, hasProp, isPlainObject,
      exposesThenCatch]

/-- Claim C1: each combinator, fed a deferred result, yields a deferred
output (which, being a `JsPromise`, settles exactly once) that settles
strictly after the input settles, and its settlement is exactly the
immediate branch of the same combinator, with the same extra
arguments, applied to the settled result of the input — a throw of the
immediate branch appearing as a rejection, a deferred output of the
immediate branch contributing its own settlement, and a rejection of
the input passing through. -/
theorem deferred_combinators_commute {ω : Type} (p : JsPromise ω (Result ω))
    (fn : ω → Call ω) (g : ω → Except ω Unit) (d : ω) :
    (p.time < (mapP p fn).time
      ∧ (mapP p fn).outcome
          = afterSettle (fun r => settleOfSum (map r fn)) p.outcome)
  ∧ (p.time < (mapErrP p fn).time
      ∧ (mapErrP p fn).outcome
          = afterSettle (fun r => settleOfSum (mapErr r fn)) p.outcome)
  ∧ (p.time < (tapP p g).time
      ∧ (tapP p g).outcome
          = afterSettle (fun r => settleOfExcept (tap r g)) p.outcome)
  ∧ (p.time < (tapErrP p g).time
      ∧ (tapErrP p g).outcome
          = afterSettle (fun r => settleOfExcept (tapErr r g)) p.outcome)
  ∧ (p.time < (unwrapP p).time
      ∧ (unwrapP p).outcome
          = afterSettle (fun r => Settled.resolved (unwrap r)) p.outcome)
  ∧ (p.time < (unwrapErrP p).time
      ∧ (unwrapErrP p).outcome
          = afterSettle (fun r => Settled.resolved (unwrapErr r)) p.outcome)
  ∧ (p.time < (unwrapForcedP p).time
      ∧ (unwrapForcedP p).outcome
          = afterSettle (fun r => Settled.resolved (unwrapForced r)) p.outcome)
  ∧ (p.time < (unwrapEitherP p).time
      ∧ (unwrapEitherP p).outcome
          = afterSettle (fun r => Settled.resolved (unwrapEither r)) p.outcome)
  ∧ (p.time < (unwrapOrP p d).time
      ∧ (unwrapOrP p d).outcome
          = afterSettle (fun r => Settled.resolved (unwrapOr r d)) p.outcome) := by
  refine ⟨⟨thenFull_ok_time p _, ?_⟩, ⟨thenFull_ok_time p _, ?_⟩,
    ⟨thenF_time p _, ?_⟩, ⟨thenF_time p _, ?_⟩, ⟨thenF_time p _, ?_⟩,
    ⟨thenF_time p _, ?_⟩, ⟨thenF_time p _, ?_⟩, ⟨thenF_time p _, ?_⟩,
    ⟨thenF_time p _, ?_⟩⟩
  · exact thenFull_ok_outcome p (fun r => map r fn)
  · exact thenFull_ok_outcome p (fun r => mapErr r fn)
  · exact thenF_outcome p (fun r => tap r g)
  · exact thenF_outcome p (fun r => tapErr r g)
  · rw [unwrapP, thenF_outcome p (fun r => Except.ok (unwrap r))]
    rfl
  · rw [unwrapErrP, thenF_outcome p (fun r => Except.ok (unwrapErr r))]
    rfl
  · rw [unwrapForcedP, thenF_outcome p (fun r => Except.ok (unwrapForced r))]
    rfl
  · rw [unwrapEitherP, thenF_outcome p (fun r => Except.ok (unwrapEither r))]
    rfl
  · rw [unwrapOrP, thenF_outcome p (fun r => Except.ok (unwrapOr r d))]
    rfl

end Ishod

